import Mathlib

/-!
Verification of the comment-toggle text transformation and the readiness
predicate of the memo-demo site scripts.

The code under scrutiny lives in two files of the repository:

* `src/assets/js/thebe-config.js` — `implementManualCommentToggle` installs a
  fallback `toggleComment` command, and `checkKernelReady` /
  `updateConnectionState` implement the readiness predicate.
* `src/test-codemirror-browser.js` — `createCommentToggleCommand` builds a
  self-contained `toggleComment` from the helpers `getCommentString`,
  `toggleCommentForSelection`, `shouldCommentRange`, `toggleCommentForLine`,
  `isCommented`, `addCommentToLine` and `removeCommentFromLine`.

Editor lines are modelled as `List Char` (a CodeMirror line never contains a
newline).  JavaScript's `\s` class and `String.prototype.trim` are modelled by
`isWs` restricted to the whitespace characters that can occur inside a single
line.
-/

namespace MemoDemo

/-- A single editor line: a list of characters, never containing `'\n'`
in practice (CodeMirror's `getLine` returns newline-free strings). -/
abbrev Line := List Char

/-- JavaScript whitespace (`\s`, `String.prototype.trim`) restricted to
characters occurring inside a single editor line. -/
def isWs (c : Char) : Bool :=
  c = ' ' || c = '\t' || c = '\r' || c = '\x0b' || c = '\x0c'

/-- The leading-whitespace run of a line: the match of `/^\s*/` used by both
implementations (`text.match(/^\s*/)[0]`). -/
def leadingWs (t : Line) : Line := t.takeWhile isWs

/-- The content of a line after its leading whitespace:
`text.slice(indent.length)` in `addCommentToLine`. -/
def afterIndent (t : Line) : Line := t.dropWhile isWs

/-- Right trim: remove trailing whitespace. -/
def trimRight (t : Line) : Line := (t.reverse.dropWhile isWs).reverse

/-- JavaScript `text.trim()`: strip whitespace from both ends. -/
def trim (t : Line) : Line := trimRight (afterIndent t)

/-- JavaScript truthiness test `!text.trim()`: the line is empty or
whitespace-only. -/
def isBlank (t : Line) : Bool := (trim t).isEmpty

/-- `isCommented(text, commentString)` from `test-codemirror-browser.js`:
`text.trim().startsWith(commentString)`.  The fallback implementation uses the
same test inline (`line.trim().startsWith(commentString)`). -/
def isCommented (m t : Line) : Bool := m.isPrefixOf (trim t)

/-- Drop at most one leading whitespace character: the greedy `\s?` at the end
of the uncomment regex `^(\s*)marker\s?`. -/
def dropOneWs : Line → Line
  | [] => []
  | c :: r => if isWs c then r else c :: r

/-- `removeCommentFromLine` (and the identical regex-replace in the fallback's
uncomment branch): `text.replace(/^(\s*)marker\s?/, '$1')`.  For a marker whose
first character is not whitespace, the anchored greedy regex matches exactly
when the marker follows the maximal leading-whitespace run, and the
replacement keeps that whitespace and drops the marker plus at most one
following whitespace character. -/
def removeCommentFromLine (m t : Line) : Line :=
  if m.isPrefixOf (afterIndent t) then
    leadingWs t ++ dropOneWs ((afterIndent t).drop m.length)
  else t

/-- `addCommentToLine` from `test-codemirror-browser.js`: blank lines are
skipped (`if (!text.trim()) return 0`); otherwise
`newText = indent + commentString + ' ' + content` with
`content = text.slice(indent.length)`. -/
def addCommentToLine (m t : Line) : Line :=
  if isBlank t then t else leadingWs t ++ m ++ ' ' :: afterIndent t

/-- The comment branch of the fallback `toggleComment` in `thebe-config.js`:
`newLine = leadingWhitespace + commentString + ' ' + line.trim()`, applied only
when `line.trim()` is truthy (blank lines are left alone). -/
def addCommentFallback (m t : Line) : Line :=
  if isBlank t then t else leadingWs t ++ m ++ ' ' :: trim t

/-- `shouldCommentRange` over the extracted list of lines: comment the whole
range exactly when some non-blank line is not commented
(`if (text.trim() && !isCommented(text, commentString)) return true`). -/
def shouldCommentLines (m : Line) (ls : List Line) : Bool :=
  ls.any fun t => !isBlank t && !isCommented m t

/-- The `allCommented` accumulator of the fallback `toggleComment`: starts
`true` and is cleared when a non-blank line lacks the marker
(`if (line.trim() && !line.trim().startsWith(commentString))`). -/
def allCommentedLines (m : Line) (ls : List Line) : Bool :=
  ls.all fun t => isBlank t || isCommented m t

/-- The lines of the inclusive line range `[s, e]` of a buffer, the lines
visited by the `for (let i = startLine; i <= endLine; i++)` loops. -/
def rangeLines (buf : List Line) (s e : Nat) : List Line :=
  (buf.drop s).take (e + 1 - s)

/-- Rewrite every line with index in `[s, e]` by `f`, leaving the rest of the
buffer unchanged: the functional reading of the per-line
`cm.replaceRange(newLine, {line: i, ch: 0}, {line: i, ch: line.length})`
loops. -/
def applyRange (f : Line → Line) (buf : List Line) (s e : Nat) : List Line :=
  buf.take s ++ (rangeLines buf s e).map f ++ buf.drop (e + 1)

/-- The multi-line body of the self-contained `toggleCommentForSelection`:
decide the direction once with `shouldCommentRange`, then apply
`addCommentToLine` or `removeCommentFromLine` to every line of the range. -/
def toggleRangeSelf (m : Line) (buf : List Line) (s e : Nat) : List Line :=
  if shouldCommentLines m (rangeLines buf s e) then
    applyRange (addCommentToLine m) buf s e
  else
    applyRange (removeCommentFromLine m) buf s e

/-- The range body of the fallback `toggleComment` in `thebe-config.js`:
if `allCommented`, run the uncomment regex over every line; otherwise comment
every non-blank line with the trimming rebuild. -/
def toggleRangeFallback (m : Line) (buf : List Line) (s e : Nat) : List Line :=
  if allCommentedLines m (rangeLines buf s e) then
    applyRange (removeCommentFromLine m) buf s e
  else
    applyRange (addCommentFallback m) buf s e

/-- `toggleCommentForLine` (text part): if the line is commented, uncomment
it; else if it is non-blank, comment it; blank lines are untouched. -/
def toggleLineSelf (m t : Line) : Line :=
  if isCommented m t then removeCommentFromLine m t
  else if !isBlank t then addCommentToLine m t
  else t

/-- A well-formed comment marker: non-empty and containing no whitespace.
Every marker produced by the source (`#`, `//`, `--`, `<!--`, `/*`, …)
satisfies this; it is what makes the anchored greedy regex
`^(\s*)marker\s?` coincide with the maximal-leading-whitespace decomposition
used in `removeCommentFromLine`. -/
def markerOK (m : Line) : Prop :=
  m ≠ [] ∧ ∀ c ∈ m, isWs c = false

instance (m : Line) : Decidable (markerOK m) := by
  unfold markerOK; infer_instance

/-- Convenience: coerce a string literal to a line. -/
def str (s : String) : Line := s.toList

/-! ### Basic facts about whitespace splitting -/

theorem takeWhile_append_all {p : Char → Bool} (a b : List Char)
    (h : ∀ c ∈ a, p c = true) : (a ++ b).takeWhile p = a ++ b.takeWhile p := by
  induction a with
  | nil => simp
  | cons x xs ih =>
    have hx : p x = true := h x (by simp)
    simp only [List.cons_append, List.takeWhile_cons, hx, if_true]
    rw [ih fun c hc => h c (List.mem_cons_of_mem _ hc)]

theorem dropWhile_append_all {p : Char → Bool} (a b : List Char)
    (h : ∀ c ∈ a, p c = true) : (a ++ b).dropWhile p = b.dropWhile p := by
  induction a with
  | nil => simp
  | cons x xs ih =>
    have hx : p x = true := h x (by simp)
    simp only [List.cons_append, List.dropWhile_cons, hx, if_true]
    exact ih fun c hc => h c (List.mem_cons_of_mem _ hc)

theorem dropWhile_append_of_ne_nil {p : Char → Bool} (a b : List Char)
    (h : a.dropWhile p ≠ []) : (a ++ b).dropWhile p = a.dropWhile p ++ b := by
  induction a with
  | nil => simp at h
  | cons x xs ih =>
    by_cases hx : p x = true
    · simp only [List.cons_append, List.dropWhile_cons, hx, if_true]
      simp only [List.dropWhile_cons, hx, if_true] at h
      exact ih h
    · have hx' : p x = false := by revert hx; cases p x <;> simp
      simp [List.cons_append, List.dropWhile_cons, hx']

theorem dropWhile_head_false {p : Char → Bool} :
    ∀ (l : List Char) {c : Char} {r : List Char},
      l.dropWhile p = c :: r → p c = false
  | [], c, r, h => by simp [List.dropWhile] at h
  | x :: xs, c, r, h => by
    by_cases hx : p x = true
    · rw [List.dropWhile_cons_of_pos hx] at h
      exact dropWhile_head_false xs h
    · have hx' : p x = false := by revert hx; cases p x <;> simp
      rw [List.dropWhile_cons_of_neg (by simp [hx'])] at h
      cases h
      exact hx'

theorem mem_leadingWs {t : Line} : ∀ c ∈ leadingWs t, isWs c = true := by
  intro c hc
  exact List.mem_takeWhile_imp hc

theorem leadingWs_append_afterIndent (t : Line) :
    leadingWs t ++ afterIndent t = t :=
  List.takeWhile_append_dropWhile isWs t

/-- Splitting off the maximal leading-whitespace run of `ws ++ m ++ y` when
`ws` is all whitespace and the marker `m` starts with a non-whitespace
character. -/
theorem leadingWs_ws_marker (ws m y : Line) (hws : ∀ c ∈ ws, isWs c = true)
    (hm : markerOK m) : leadingWs (ws ++ (m ++ y)) = ws := by
  obtain ⟨hne, hmw⟩ := hm
  obtain ⟨c, m', rfl⟩ : ∃ c m', m = c :: m' := by
    cases m with
    | nil => exact absurd rfl hne
    | cons c m' => exact ⟨c, m', rfl⟩
  unfold leadingWs
  rw [takeWhile_append_all _ _ hws]
  have hc : isWs c = false := hmw c (by simp)
  simp [List.takeWhile_cons, hc]

theorem afterIndent_ws_marker (ws m y : Line) (hws : ∀ c ∈ ws, isWs c = true)
    (hm : markerOK m) : afterIndent (ws ++ (m ++ y)) = m ++ y := by
  obtain ⟨hne, hmw⟩ := hm
  obtain ⟨c, m', rfl⟩ : ∃ c m', m = c :: m' := by
    cases m with
    | nil => exact absurd rfl hne
    | cons c m' => exact ⟨c, m', rfl⟩
  unfold afterIndent
  rw [dropWhile_append_all _ _ hws]
  have hc : isWs c = false := hmw c (by simp)
  simp [List.dropWhile_cons, hc]

/-! ### Trimming lemmas -/

theorem trimRight_append (a b : Line) (hb : trimRight b ≠ []) :
    trimRight (a ++ b) = a ++ trimRight b := by
  unfold trimRight at *
  have hb' : b.reverse.dropWhile isWs ≠ [] := by
    intro h
    rw [h] at hb
    simp at hb
  rw [List.reverse_append, dropWhile_append_of_ne_nil _ _ hb',
    List.reverse_append, List.reverse_reverse]

theorem trimRight_idem (a : Line) : trimRight (trimRight a) = trimRight a := by
  unfold trimRight
  rw [List.reverse_reverse]
  cases h : a.reverse.dropWhile isWs with
  | nil => simp
  | cons c r =>
    have hc : isWs c = false := dropWhile_head_false _ h
    rw [List.dropWhile_cons_of_neg (by simp [hc])]

theorem trimRight_eq_nil_all_ws (a : Line) (h : trimRight a = []) :
    ∀ c ∈ a, isWs c = true := by
  intro c hc
  unfold trimRight at h
  have : a.reverse.dropWhile isWs = [] := by
    have := congrArg List.reverse h
    rwa [List.reverse_reverse, List.reverse_nil] at this
  rw [List.dropWhile_eq_nil_iff] at this
  exact this c (List.mem_reverse.mpr hc)

theorem isBlank_false_iff (t : Line) : isBlank t = false ↔ trim t ≠ [] := by
  unfold isBlank
  cases h : trim t <;> simp [h]

theorem afterIndent_eq_nil_of_blank (t : Line) (hb : isBlank t = true) :
    afterIndent t = [] := by
  cases h : afterIndent t with
  | nil => rfl
  | cons c r =>
    exfalso
    have hc : isWs c = false := dropWhile_head_false _ h
    have htr : trimRight (afterIndent t) = [] := by
      unfold isBlank trim at hb
      cases h2 : trimRight (afterIndent t) with
      | nil => rfl
      | cons x xs => rw [h2] at hb; simp at hb
    have := trimRight_eq_nil_all_ws _ htr c (by rw [h]; simp)
    rw [this] at hc
    exact absurd hc (by simp)

/-! ### Core lemmas about the line transformations -/

/-- Greedy uncomment on a matching line: strip the marker and at most one
following whitespace character, keeping the leading whitespace. -/
theorem removeComment_match (m ws y : Line) (hm : markerOK m)
    (hws : ∀ c ∈ ws, isWs c = true) :
    removeCommentFromLine m (ws ++ (m ++ y)) = ws ++ dropOneWs y := by
  unfold removeCommentFromLine
  rw [afterIndent_ws_marker ws m y hws hm, leadingWs_ws_marker ws m y hws hm]
  have hpre : m.isPrefixOf (m ++ y) = true := by
    rw [List.isPrefixOf_iff_prefix]
    exact List.prefix_append m y
  rw [if_pos hpre, List.drop_left]

/-- A non-matching line (marker not at the head of the post-indent content)
is left untouched by the uncomment transformation. -/
theorem removeComment_no_match (m t : Line)
    (h : m.isPrefixOf (afterIndent t) = false) :
    removeCommentFromLine m t = t := by
  unfold removeCommentFromLine
  rw [h]
  simp

theorem removeComment_blank (m t : Line) (hm : markerOK m)
    (hb : isBlank t = true) : removeCommentFromLine m t = t := by
  apply removeComment_no_match
  rw [afterIndent_eq_nil_of_blank t hb]
  cases m with
  | nil => exact absurd rfl hm.1
  | cons c r => rfl

theorem addComment_blank (m t : Line) (hb : isBlank t = true) :
    addCommentToLine m t = t := by
  unfold addCommentToLine
  rw [hb]
  simp

theorem addCommentFallback_blank (m t : Line) (hb : isBlank t = true) :
    addCommentFallback m t = t := by
  unfold addCommentFallback
  rw [hb]
  simp

theorem addComment_eq (m t : Line) (hb : isBlank t = false) :
    addCommentToLine m t = leadingWs t ++ (m ++ ' ' :: afterIndent t) := by
  unfold addCommentToLine
  rw [hb]
  simp

theorem addCommentFallback_eq (m t : Line) (hb : isBlank t = false) :
    addCommentFallback m t = leadingWs t ++ (m ++ ' ' :: trim t) := by
  unfold addCommentFallback
  rw [hb]
  simp

/-- Uncommenting a freshly commented line restores it exactly
(`removeCommentFromLine` inverts `addCommentToLine`). -/
theorem removeComment_addComment (m t : Line) (hm : markerOK m)
    (hb : isBlank t = false) :
    removeCommentFromLine m (addCommentToLine m t) = t := by
  rw [addComment_eq m t hb,
    removeComment_match m (leadingWs t) (' ' :: afterIndent t) hm mem_leadingWs]
  have : dropOneWs (' ' :: afterIndent t) = afterIndent t := by
    unfold dropOneWs
    simp [isWs]
  rw [this, leadingWs_append_afterIndent]

/-- A line of the shape `ws ++ marker ++ " " ++ y` with non-blank `y` passes
the `isCommented` test. -/
theorem isCommented_ws_marker (m ws y : Line) (hm : markerOK m)
    (hws : ∀ c ∈ ws, isWs c = true) (hy : trimRight y ≠ []) :
    isCommented m (ws ++ (m ++ ' ' :: y)) = true := by
  unfold isCommented trim
  rw [afterIndent_ws_marker ws m (' ' :: y) hws hm]
  have hrw : m ++ ' ' :: y = (m ++ [' ']) ++ y := by simp
  rw [hrw, trimRight_append _ _ hy]
  rw [List.isPrefixOf_iff_prefix]
  have : (m ++ [' ']) ++ trimRight y = m ++ ([' '] ++ trimRight y) := by simp
  rw [this]
  exact List.prefix_append m _

theorem trim_of_nonblank_ne_nil (t : Line) (hb : isBlank t = false) :
    trimRight (afterIndent t) ≠ [] := by
  have := (isBlank_false_iff t).mp hb
  unfold trim at this
  exact this

/-- A freshly commented non-blank line is commented. -/
theorem isCommented_addComment (m t : Line) (hm : markerOK m)
    (hb : isBlank t = false) :
    isCommented m (addCommentToLine m t) = true := by
  rw [addComment_eq m t hb]
  exact isCommented_ws_marker m _ _ hm mem_leadingWs (trim_of_nonblank_ne_nil t hb)

theorem isCommented_addCommentFallback (m t : Line) (hm : markerOK m)
    (hb : isBlank t = false) :
    isCommented m (addCommentFallback m t) = true := by
  rw [addCommentFallback_eq m t hb]
  apply isCommented_ws_marker m _ _ hm mem_leadingWs
  unfold trim
  rw [trimRight_idem]
  exact trim_of_nonblank_ne_nil t hb

theorem addComment_length (m t : Line) (hb : isBlank t = false) :
    (addCommentToLine m t).length = t.length + m.length + 1 := by
  rw [addComment_eq m t hb]
  have := congrArg List.length (leadingWs_append_afterIndent t)
  simp only [List.length_append] at this ⊢
  simp only [List.length_cons]
  omega

/-! ### Indexing the rewritten buffer -/

/-- `cm.getLine(i)`, total with default `[]` (the source only ever indexes
lines inside the buffer, because ranges come from the editor's own
selections). -/
def lineAt (buf : List Line) (i : Nat) : Line := (buf[i]?).getD []

theorem rangeLines_getElem? (buf : List Line) (s e i : Nat) (h : i < e + 1 - s) :
    (rangeLines buf s e)[i]? = buf[s + i]? := by
  unfold rangeLines
  rw [List.getElem?_take, if_pos h, List.getElem?_drop]

/-- Master indexing lemma: rewriting the inclusive range `[s, e]` touches
exactly the lines with index in the range. -/
theorem applyRange_getElem? (f : Line → Line) (buf : List Line) (s e i : Nat)
    (hse : s ≤ e) (he : e < buf.length) :
    (applyRange f buf s e)[i]? =
      if s ≤ i ∧ i ≤ e then (buf[i]?).map f else buf[i]? := by
  unfold applyRange
  have hsl : s ≤ buf.length := by omega
  have hlt : (buf.take s).length = s := by
    rw [List.length_take]
    omega
  have hmid : ((rangeLines buf s e).map f).length = e + 1 - s := by
    rw [List.length_map]
    unfold rangeLines
    rw [List.length_take, List.length_drop]
    omega
  have hout : (buf.take s ++ (rangeLines buf s e).map f).length = e + 1 := by
    rw [List.length_append, hlt, hmid]
    omega
  by_cases h2 : i ≤ e
  · rw [List.getElem?_append, hout, if_pos (by omega)]
    rw [List.getElem?_append, hlt]
    by_cases h1 : i < s
    · rw [if_pos h1, List.getElem?_take, if_pos h1, if_neg (by omega)]
    · rw [if_neg h1]
      rw [List.getElem?_map, rangeLines_getElem? buf s e (i - s) (by omega)]
      have : s + (i - s) = i := by omega
      rw [this, if_pos ⟨by omega, h2⟩]
  · rw [List.getElem?_append, hout, if_neg (by omega)]
    rw [List.getElem?_drop]
    have : e + 1 + (i - (e + 1)) = i := by omega
    rw [this, if_neg (by omega)]

theorem applyRange_length (f : Line → Line) (buf : List Line) (s e : Nat)
    (hse : s ≤ e) (he : e < buf.length) :
    (applyRange f buf s e).length = buf.length := by
  unfold applyRange rangeLines
  simp only [List.length_append, List.length_map, List.length_take,
    List.length_drop]
  omega

theorem applyRange_lineAt (f : Line → Line) (buf : List Line) (s e i : Nat)
    (hse : s ≤ e) (he : e < buf.length) :
    lineAt (applyRange f buf s e) i =
      if s ≤ i ∧ i ≤ e then f (lineAt buf i) else lineAt buf i := by
  unfold lineAt
  rw [applyRange_getElem? f buf s e i hse he]
  by_cases h : s ≤ i ∧ i ≤ e
  · rw [if_pos h, if_pos h]
    have hi : i < buf.length := by omega
    rw [List.getElem?_eq_getElem hi]
    rfl
  · rw [if_neg h, if_neg h]

theorem applyRange_lineAt_in (f : Line → Line) (buf : List Line) (s e i : Nat)
    (hse : s ≤ e) (he : e < buf.length) (h1 : s ≤ i) (h2 : i ≤ e) :
    lineAt (applyRange f buf s e) i = f (lineAt buf i) := by
  rw [applyRange_lineAt f buf s e i hse he, if_pos ⟨h1, h2⟩]

theorem applyRange_lineAt_out (f : Line → Line) (buf : List Line) (s e i : Nat)
    (hse : s ≤ e) (he : e < buf.length) (h : ¬(s ≤ i ∧ i ≤ e)) :
    lineAt (applyRange f buf s e) i = lineAt buf i := by
  rw [applyRange_lineAt f buf s e i hse he, if_neg h]

/-- The fallback's `allCommented` accumulator is the negation of the
self-contained `shouldCommentRange` test. -/
theorem allCommented_eq_not_shouldComment (m : Line) (ls : List Line) :
    allCommentedLines m ls = !shouldCommentLines m ls := by
  unfold allCommentedLines shouldCommentLines
  induction ls with
  | nil => rfl
  | cons t ts ih =>
    simp only [List.all_cons, List.any_cons, ih, Bool.not_or]
    cases isBlank t <;> cases isCommented m t <;> simp

/-! ### Comment markers and editor modes -/

/-- The relevant shape of a CodeMirror mode object as consumed by the two
`toggleComment` implementations: `mode.name` (possibly absent) and
`mode.lineComment` (possibly absent; possibly the empty string). -/
structure Mode where
  name : Option String
  lineComment : Option String
deriving DecidableEq

/-- `String.prototype.toLowerCase()` on the ASCII mode names involved:
character-wise lowering. -/
def jsToLower (s : String) : String := String.mk (s.data.map Char.toLower)

/-- The static `modeMap` table of `getCommentString` in
`test-codemirror-browser.js`, as a partial lookup. -/
def modeMapLookup : String → Option String
  | "python" => some "#"
  | "javascript" => some "//"
  | "typescript" => some "//"
  | "jsx" => some "//"
  | "tsx" => some "//"
  | "java" => some "//"
  | "c" => some "//"
  | "cpp" => some "//"
  | "csharp" => some "//"
  | "ruby" => some "#"
  | "shell" => some "#"
  | "bash" => some "#"
  | "yaml" => some "#"
  | "r" => some "#"
  | "julia" => some "#"
  | "sql" => some "--"
  | "lua" => some "--"
  | "haskell" => some "--"
  | "rust" => some "//"
  | "go" => some "//"
  | "swift" => some "//"
  | "kotlin" => some "//"
  | "scala" => some "//"
  | "php" => some "//"
  | "perl" => some "#"
  | "html" => some "<!--"
  | "xml" => some "<!--"
  | "css" => some "/*"
  | "scss" => some "//"
  | "less" => some "//"
  | "markdown" => some "<!--"
  | _ => none

/-- `getCommentString(mode)` from `test-codemirror-browser.js`:
`modeMap[mode.name?.toLowerCase() || ''] || '#'`. -/
def getCommentString (mo : Mode) : String :=
  (modeMapLookup ((mo.name.map jsToLower).getD "")).getD "#"

/-- The marker computation of the fallback `toggleComment` in
`thebe-config.js`:
`mode.lineComment || (mode.name === 'python' ? '#' : '//')`
(an absent or empty `lineComment` is falsy). -/
def fallbackCommentString (mo : Mode) : String :=
  let dflt := if mo.name = some "python" then "#" else "//"
  match mo.lineComment with
  | some c => if c = "" then dflt else c
  | none => dflt

/-- The self-contained `toggleComment` on a line range, marker resolved from
the mode as `createCommentToggleCommand` does. -/
def selfToggle (mo : Mode) (buf : List Line) (s e : Nat) : List Line :=
  toggleRangeSelf (getCommentString mo).toList buf s e

/-- The fallback `toggleComment` on a line range, marker resolved from the
mode as `implementManualCommentToggle` does. -/
def fallbackToggle (mo : Mode) (buf : List Line) (s e : Nat) : List Line :=
  toggleRangeFallback (fallbackCommentString mo).toList buf s e

/-! ### Selections and cursor restoration -/

/-- A CodeMirror position `{line, ch}`. -/
structure Pos where
  line : Nat
  ch : Nat
deriving DecidableEq

/-- A CodeMirror selection: `anchor` and `head` positions. -/
structure Sel where
  anchor : Pos
  head : Pos
deriving DecidableEq

/-- CodeMirror's position order (`cmp`): by line, then by column. -/
def posLe (a b : Pos) : Prop :=
  a.line < b.line ∨ (a.line = b.line ∧ a.ch ≤ b.ch)

instance (a b : Pos) : Decidable (posLe a b) := by
  unfold posLe; infer_instance

/-- `selection.from()`: the smaller end of the selection. -/
def selFrom (sel : Sel) : Pos :=
  if posLe sel.anchor sel.head then sel.anchor else sel.head

/-- `selection.to()`: the larger end of the selection. -/
def selTo (sel : Sel) : Pos :=
  if posLe sel.anchor sel.head then sel.head else sel.anchor

/-- `Math.max(0, ch + delta)` over integer deltas, back to a column. -/
def clampCh (ch : Nat) (d : Int) : Nat := (max 0 ((ch : Int) + d)).toNat

/-- Character delta reported by `addCommentToLine`: `commentWithSpace.length`
for a non-blank line, `0` for a blank line. -/
def addDelta (m t : Line) : Int := if isBlank t then 0 else (m.length : Int) + 1

/-- Character delta reported by `removeCommentFromLine`: `-charsRemoved` when
the regex changed the line, `0` otherwise. -/
def removeDelta (m t : Line) : Int :=
  if removeCommentFromLine m t = t then 0
  else ((removeCommentFromLine m t).length : Int) - (t.length : Int)

/-- The `lineDeltas[i]` entry recorded by `toggleCommentForSelection` for a
line of the range. -/
def lineDelta (m : Line) (sc : Bool) (t : Line) : Int :=
  if sc then addDelta m t else removeDelta m t

/-- The `charsDelta` computed by `toggleCommentForLine` for the line under an
empty cursor. -/
def singleDelta (m text : Line) : Int :=
  if isCommented m text then removeDelta m text
  else if !isBlank text then addDelta m text
  else 0

/-- `lineDeltas[l] || 0` as used when rebuilding anchor/head: the recorded
delta for lines of the range, `0` elsewhere. -/
def rangeDeltaAt (m : Line) (buf : List Line) (s e l : Nat) : Int :=
  if s ≤ l ∧ l ≤ e then
    lineDelta m (shouldCommentLines m (rangeLines buf s e)) (lineAt buf l)
  else 0

/-- `toggleCommentForSelection` from `test-codemirror-browser.js`: the empty
cursor goes through `toggleCommentForLine`; a real selection decides the
direction once via `shouldCommentRange`, rewrites every line of
`[from.line, to.line]`, and rebuilds anchor and head on their own lines with
columns shifted by that line's delta, clamped at `0`
(`Math.max(0, anchor.ch + (lineDeltas[anchor.line] || 0))`). -/
def toggleSelectionSelf (m : Line) (buf : List Line) (sel : Sel) :
    List Line × Sel :=
  if selFrom sel = selTo sel then
    (applyRange (toggleLineSelf m) buf (selFrom sel).line (selFrom sel).line,
      ⟨⟨(selFrom sel).line,
         clampCh (selFrom sel).ch
           (singleDelta m (lineAt buf (selFrom sel).line))⟩,
       ⟨(selFrom sel).line,
         clampCh (selFrom sel).ch
           (singleDelta m (lineAt buf (selFrom sel).line))⟩⟩)
  else
    (toggleRangeSelf m buf (selFrom sel).line (selTo sel).line,
      ⟨⟨sel.anchor.line,
         clampCh sel.anchor.ch
           (rangeDeltaAt m buf (selFrom sel).line (selTo sel).line
             sel.anchor.line)⟩,
       ⟨sel.head.line,
         clampCh sel.head.ch
           (rangeDeltaAt m buf (selFrom sel).line (selTo sel).line
             sel.head.line)⟩⟩)

/-- Net character-count change of line `l` between two buffers. -/
def lineLenDelta (buf buf' : List Line) (l : Nat) : Int :=
  ((lineAt buf' l).length : Int) - ((lineAt buf l).length : Int)

/-! ### Readiness predicate (bootstrap orchestrator) -/

/-- The `thebeState.server` object as far as `checkKernelReady` reads it. -/
structure ServerObj where
  isReady : Bool
deriving DecidableEq

/-- The `thebeState.session` object as far as `checkKernelReady` reads it:
`kernelPresent` models `session.kernel != null`. -/
structure SessionObj where
  kernelPresent : Bool
deriving DecidableEq

/-- The module state read by `checkKernelReady` in `thebe-config.js` (the
same function appears verbatim in `test-codemirror-browser.js`). -/
structure ThebeState where
  server : Option ServerObj
  session : Option SessionObj
  isServerReady : Bool
  isSessionReady : Bool
  isKernelReady : Bool
deriving DecidableEq

/-- `const serverReady = thebeState.server?.isReady || thebeState.isServerReady`
(optional chaining on a null server yields `undefined`, which is falsy). -/
def serverReadyNow (s : ThebeState) : Bool :=
  (match s.server with
    | some sv => sv.isReady
    | none => false) || s.isServerReady

/-- `const sessionReady = thebeState.session?.kernel != null || thebeState.isSessionReady`
(`undefined != null` is `false` under loose equality). -/
def sessionReadyNow (s : ThebeState) : Bool :=
  (match s.session with
    | some ss => ss.kernelPresent
    | none => false) || s.isSessionReady

/-- `checkKernelReady()`: `serverReady && sessionReady && kernelReady`. -/
def checkKernelReady (s : ThebeState) : Bool :=
  serverReadyNow s && sessionReadyNow s && s.isKernelReady

/-- `isThebeReady()` simply returns `checkKernelReady()`. -/
def isThebeReady (s : ThebeState) : Bool := checkKernelReady s

/-- The ready-related CSS classes toggled on the controls container by
`updateUIForStatus`. -/
structure UIClasses where
  ready : Bool
  loading : Bool
  failed : Bool
deriving DecidableEq

/-- The status string chosen by the `monitorThebeStatus` interval: `'ready'`
when `isThebeReady()`, otherwise `'loading'` (all three branches of its
ternary chain produce `'loading'`). -/
def monitorStatus (s : ThebeState) : String :=
  if isThebeReady s then "ready" else "loading"

/-- The class-setting core of `updateUIForStatus`:
`classList.toggle('ready', isReady)` etc. force each class to the
corresponding status boolean.  (The early-return guard only skips the update
when the status string is unchanged, in which case the classes already hold
these values.) -/
def updateUIForStatus (status : String) (_cls : UIClasses) : UIClasses :=
  ⟨status == "ready", status == "loading", status == "failed"⟩

/-! ### Further helper lemmas -/

theorem applyRange_getElem?_in (f : Line → Line) (buf : List Line)
    (s e i : Nat) (hse : s ≤ e) (he : e < buf.length) (h1 : s ≤ i)
    (h2 : i ≤ e) : (applyRange f buf s e)[i]? = some (f (lineAt buf i)) := by
  rw [applyRange_getElem? f buf s e i hse he, if_pos ⟨h1, h2⟩]
  have hi : i < buf.length := by omega
  unfold lineAt
  rw [List.getElem?_eq_getElem hi]
  rfl

theorem applyRange_getElem?_fix (f : Line → Line) (buf : List Line)
    (s e i : Nat) (hse : s ≤ e) (he : e < buf.length) (h1 : s ≤ i)
    (h2 : i ≤ e) (hf : f (lineAt buf i) = lineAt buf i) :
    (applyRange f buf s e)[i]? = some (lineAt buf i) := by
  rw [applyRange_getElem?_in f buf s e i hse he h1 h2, hf]

theorem trim_eq_afterIndent_of_noTrail (t : Line) (hb : isBlank t = false)
    (htr : trimRight t = t) : trim t = afterIndent t := by
  have hne : trimRight (afterIndent t) ≠ [] := trim_of_nonblank_ne_nil t hb
  have hsplit : trimRight t = leadingWs t ++ trimRight (afterIndent t) := by
    conv_lhs => rw [← leadingWs_append_afterIndent t]
    exact trimRight_append _ _ hne
  have : leadingWs t ++ trimRight (afterIndent t) =
      leadingWs t ++ afterIndent t := by
    rw [← hsplit, htr]
    exact (leadingWs_append_afterIndent t).symm
  exact List.append_cancel_left this

theorem trimRight_split (t : Line) (hb : isBlank t = false) :
    trimRight t = leadingWs t ++ trim t := by
  have hne : trimRight (afterIndent t) ≠ [] := trim_of_nonblank_ne_nil t hb
  conv_lhs => rw [← leadingWs_append_afterIndent t]
  exact trimRight_append _ _ hne

/-! ## C5 — commenting a line -/

/-- C5 (confirmed): for every non-blank line, `addCommentToLine` produces the
line's leading whitespace, then the marker and exactly one space, then the
rest of the line (everything after the leading whitespace, unchanged), and
`removeCommentFromLine` applied to that result restores the original line
exactly. -/
theorem comment_line_spec (m t : Line) (hm : markerOK m)
    (hb : isBlank t = false) :
    addCommentToLine m t = leadingWs t ++ (m ++ ' ' :: afterIndent t) ∧
    leadingWs t ++ afterIndent t = t ∧
    removeCommentFromLine m (addCommentToLine m t) = t :=
  ⟨addComment_eq m t hb, leadingWs_append_afterIndent t,
    removeComment_addComment m t hm hb⟩

/-- Witness for C5, at the spec's own example: commenting `"    x = 1"` with
the Python marker yields `"    # x = 1"`, and uncommenting reverses it. -/
theorem comment_line_spec_witness :
    (addCommentToLine (str "#") (str "    x = 1") =
      leadingWs (str "    x = 1") ++
        (str "#" ++ ' ' :: afterIndent (str "    x = 1")) ∧
     leadingWs (str "    x = 1") ++ afterIndent (str "    x = 1") =
       str "    x = 1" ∧
     removeCommentFromLine (str "#")
       (addCommentToLine (str "#") (str "    x = 1")) = str "    x = 1") ∧
    addCommentToLine (str "#") (str "    x = 1") = str "    # x = 1" ∧
    removeCommentFromLine (str "#") (str "    # x = 1") = str "    x = 1" :=
  ⟨comment_line_spec (str "#") (str "    x = 1") (by decide) (by decide),
    by decide, by decide⟩

/-! ## C6 — uncommenting a line -/

/-- The claim's literal reading of `removeCommentFromLine`: remove the
*shortest* prefix made of the leading whitespace, the marker, and at most one
whitespace character — i.e. never the optional whitespace character.  Stated
only to refute C6: the code's regex `^(\s*)marker\s?` is greedy. -/
def shortestStripPerClaim (m t : Line) : Line :=
  if m.isPrefixOf (afterIndent t) then
    leadingWs t ++ (afterIndent t).drop m.length
  else t

/-- C6 counterexample: on `"# x"` the shortest matching prefix is `"#"`, whose
removal would leave `" x"`, but the code removes `"# "` and yields `"x"`. -/
theorem uncomment_shortest_counterexample :
    removeCommentFromLine (str "#") (str "# x") = str "x" ∧
    shortestStripPerClaim (str "#") (str "# x") = str " x" ∧
    str "x" ≠ str " x" := by decide

/-- C6 (amended): uncommenting removes the *longest* prefix consisting of the
leading whitespace, the marker, and at most one whitespace character — the
optional whitespace character is consumed whenever present (greedy `\s?`) —
keeping the leading whitespace; every line where the marker does not follow
the leading whitespace directly is left completely unchanged. -/
theorem uncomment_line_greedy (m : Line) (hm : markerOK m) :
    (∀ ws y, (∀ c ∈ ws, isWs c = true) →
      removeCommentFromLine m (ws ++ (m ++ y)) = ws ++ dropOneWs y) ∧
    (∀ t, m.isPrefixOf (afterIndent t) = false →
      removeCommentFromLine m t = t) :=
  ⟨fun ws y hws => removeComment_match m ws y hm hws,
    fun t h => removeComment_no_match m t h⟩

/-- Witness for C6 (amended): `"  #  x"` loses marker plus one space keeping
the indent; `"no"` is untouched. -/
theorem uncomment_line_greedy_witness :
    removeCommentFromLine (str "#") (str "  " ++ (str "#" ++ str "  x")) =
      str "  " ++ dropOneWs (str "  x") ∧
    removeCommentFromLine (str "#") (str "no") = str "no" := by
  have h := uncomment_line_greedy (str "#") (by decide)
  exact ⟨h.1 (str "  ") (str "  x") (by decide), h.2 (str "no") (by decide)⟩

/-! ## C7 — blank-line invariance -/

/-- C7 (confirmed): toggling any range with any marker leaves every blank
(empty or whitespace-only) line of the range byte-identical, in both the
self-contained and the fallback implementation, in both directions. -/
theorem blank_line_invariance (m : Line) (buf : List Line) (s e i : Nat)
    (hm : markerOK m) (hse : s ≤ e) (he : e < buf.length)
    (h1 : s ≤ i) (h2 : i ≤ e) (hb : isBlank (lineAt buf i) = true) :
    (toggleRangeSelf m buf s e)[i]? = some (lineAt buf i) ∧
    (toggleRangeFallback m buf s e)[i]? = some (lineAt buf i) := by
  constructor
  · unfold toggleRangeSelf
    cases hsc : shouldCommentLines m (rangeLines buf s e) with
    | false =>
      rw [if_neg (by simp [hsc])]
      exact applyRange_getElem?_fix _ _ _ _ _ hse he h1 h2
        (removeComment_blank m _ hm hb)
    | true =>
      rw [if_pos (by simp [hsc])]
      exact applyRange_getElem?_fix _ _ _ _ _ hse he h1 h2
        (addComment_blank m _ hb)
  · unfold toggleRangeFallback
    rw [allCommented_eq_not_shouldComment]
    cases hsc : shouldCommentLines m (rangeLines buf s e) with
    | false =>
      rw [if_pos (by simp [hsc])]
      exact applyRange_getElem?_fix _ _ _ _ _ hse he h1 h2
        (removeComment_blank m _ hm hb)
    | true =>
      rw [if_neg (by simp [hsc])]
      exact applyRange_getElem?_fix _ _ _ _ _ hse he h1 h2
        (addCommentFallback_blank m _ hb)

/-- Witness for C7: the whitespace-only middle line of a three-line range
survives both a commenting toggle and an uncommenting toggle unchanged. -/
theorem blank_line_invariance_witness :
    (toggleRangeSelf (str "#") [str "a", str "  ", str "b"] 0 2)[1]? =
      some (lineAt [str "a", str "  ", str "b"] 1) ∧
    (toggleRangeFallback (str "#") [str "a", str "  ", str "b"] 0 2)[1]? =
      some (lineAt [str "a", str "  ", str "b"] 1) :=
  blank_line_invariance (str "#") [str "a", str "  ", str "b"] 0 2 1
    (by decide) (by decide) (by decide) (by decide) (by decide) (by decide)

/-! ## C10 — the fallback trims trailing whitespace, the self-contained
implementation does not -/

/-- C10 (confirmed): on a non-blank line with trailing whitespace, the
fallback's comment branch rebuilds the line as
`indent ++ marker ++ " " ++ trim(line)` — deleting the trailing whitespace,
which a subsequent uncomment does not restore — while `addCommentToLine`
keeps the content after the indent unchanged and round-trips exactly. -/
theorem fallback_comment_trims (m t : Line) (hm : markerOK m)
    (hb : isBlank t = false) (htr : trimRight t ≠ t) :
    addCommentFallback m t = leadingWs t ++ (m ++ ' ' :: trim t) ∧
    removeCommentFromLine m (addCommentFallback m t) =
      leadingWs t ++ trim t ∧
    leadingWs t ++ trim t ≠ t ∧
    addCommentToLine m t = leadingWs t ++ (m ++ ' ' :: afterIndent t) ∧
    removeCommentFromLine m (addCommentToLine m t) = t := by
  refine ⟨addCommentFallback_eq m t hb, ?_, ?_, addComment_eq m t hb,
    removeComment_addComment m t hm hb⟩
  · rw [addCommentFallback_eq m t hb,
      removeComment_match m _ (' ' :: trim t) hm mem_leadingWs]
    unfold dropOneWs
    simp [isWs]
  · intro hEq
    apply htr
    rw [trimRight_split t hb, hEq]

/-- Witness for C10 at `"x "`: the fallback comments it to `"# x"` and
uncommenting gives `"x"`, not `"x "`; the self-contained path yields `"# x "`
and restores `"x "`. -/
theorem fallback_comment_trims_witness :
    (addCommentFallback (str "#") (str "x ") =
      leadingWs (str "x ") ++ (str "#" ++ ' ' :: trim (str "x ")) ∧
     removeCommentFromLine (str "#") (addCommentFallback (str "#") (str "x ")) =
       leadingWs (str "x ") ++ trim (str "x ") ∧
     leadingWs (str "x ") ++ trim (str "x ") ≠ str "x " ∧
     addCommentToLine (str "#") (str "x ") =
       leadingWs (str "x ") ++ (str "#" ++ ' ' :: afterIndent (str "x ")) ∧
     removeCommentFromLine (str "#") (addCommentToLine (str "#") (str "x ")) =
       str "x ") ∧
    addCommentFallback (str "#") (str "x ") = str "# x" ∧
    addCommentToLine (str "#") (str "x ") = str "# x " :=
  ⟨fallback_comment_trims (str "#") (str "x ") (by decide) (by decide)
    (by decide), by decide, by decide⟩

/-! ## C1 — majority-uncommented rule -/

/-- C1 counterexample: the single-line range `"## x"` is fully commented, so
the uncomment direction is chosen, yet the result `"# x"` is still commented
— a fully commented range does **not** always become fully uncommented. -/
theorem majority_rule_counterexample :
    shouldCommentLines (str "#") (rangeLines [str "## x"] 0 0) = false ∧
    toggleRangeSelf (str "#") [str "## x"] 0 0 = [str "# x"] ∧
    isCommented (str "#") (str "# x") = true := by decide

/-- C1 (amended): the direction is decided once for the whole range — the
commenting transformation is applied to every line iff some non-blank line
lacks the marker as the first token of its trimmed text, and otherwise the
uncommenting transformation is applied to every line (in both
implementations, never line-by-line independently); in the commenting
direction every non-blank line of the range ends up commented.  (A fully
commented range only has one marker layer removed per line, so a
doubly-commented line stays commented, as the counterexample shows.) -/
theorem majority_rule (m : Line) (buf : List Line) (s e i : Nat)
    (hm : markerOK m) (hse : s ≤ e) (he : e < buf.length) :
    (shouldCommentLines m (rangeLines buf s e) = true ↔
      ∃ t ∈ rangeLines buf s e,
        isBlank t = false ∧ isCommented m t = false) ∧
    (s ≤ i → i ≤ e →
      (toggleRangeSelf m buf s e)[i]? =
        some (if shouldCommentLines m (rangeLines buf s e) then
          addCommentToLine m (lineAt buf i)
        else removeCommentFromLine m (lineAt buf i)) ∧
      (toggleRangeFallback m buf s e)[i]? =
        some (if shouldCommentLines m (rangeLines buf s e) then
          addCommentFallback m (lineAt buf i)
        else removeCommentFromLine m (lineAt buf i))) ∧
    (shouldCommentLines m (rangeLines buf s e) = true → s ≤ i → i ≤ e →
      isBlank (lineAt buf i) = false →
      isCommented m (lineAt (toggleRangeSelf m buf s e) i) = true) := by
  refine ⟨?_, ?_, ?_⟩
  · unfold shouldCommentLines
    rw [List.any_eq_true]
    constructor
    · rintro ⟨t, ht, hp⟩
      refine ⟨t, ht, ?_, ?_⟩ <;> revert hp <;>
        cases isBlank t <;> cases isCommented m t <;> simp
    · rintro ⟨t, ht, hb, hc⟩
      exact ⟨t, ht, by rw [hb, hc]; rfl⟩
  · intro h1 h2
    constructor
    · unfold toggleRangeSelf
      cases hsc : shouldCommentLines m (rangeLines buf s e) with
      | false =>
        rw [if_neg (by simp [hsc])]
        exact applyRange_getElem?_in _ _ _ _ _ hse he h1 h2
      | true =>
        rw [if_pos (by simp [hsc])]
        exact applyRange_getElem?_in _ _ _ _ _ hse he h1 h2
    · unfold toggleRangeFallback
      rw [allCommented_eq_not_shouldComment]
      cases hsc : shouldCommentLines m (rangeLines buf s e) with
      | false =>
        rw [if_pos (by simp [hsc])]
        exact applyRange_getElem?_in _ _ _ _ _ hse he h1 h2
      | true =>
        rw [if_neg (by simp [hsc])]
        exact applyRange_getElem?_in _ _ _ _ _ hse he h1 h2
  · intro hsc h1 h2 hb
    unfold toggleRangeSelf
    rw [if_pos (by simp [hsc])]
    rw [applyRange_lineAt_in _ _ _ _ _ hse he h1 h2]
    exact isCommented_addComment m _ hm hb

/-- Witness for C1 at the spec's majority-rule example `["a", "# b"]`: the
mixed range takes the commenting direction on every line. -/
theorem majority_rule_witness :
    (shouldCommentLines (str "#") (rangeLines [str "a", str "# b"] 0 1) = true ↔
      ∃ t ∈ rangeLines [str "a", str "# b"] 0 1,
        isBlank t = false ∧ isCommented (str "#") t = false) ∧
    (0 ≤ 0 → 0 ≤ 1 →
      (toggleRangeSelf (str "#") [str "a", str "# b"] 0 1)[0]? =
        some (if shouldCommentLines (str "#")
            (rangeLines [str "a", str "# b"] 0 1) then
          addCommentToLine (str "#") (lineAt [str "a", str "# b"] 0)
        else removeCommentFromLine (str "#") (lineAt [str "a", str "# b"] 0)) ∧
      (toggleRangeFallback (str "#") [str "a", str "# b"] 0 1)[0]? =
        some (if shouldCommentLines (str "#")
            (rangeLines [str "a", str "# b"] 0 1) then
          addCommentFallback (str "#") (lineAt [str "a", str "# b"] 0)
        else removeCommentFromLine (str "#") (lineAt [str "a", str "# b"] 0))) ∧
    (shouldCommentLines (str "#") (rangeLines [str "a", str "# b"] 0 1) = true →
      0 ≤ 0 → 0 ≤ 1 → isBlank (lineAt [str "a", str "# b"] 0) = false →
      isCommented (str "#")
        (lineAt (toggleRangeSelf (str "#") [str "a", str "# b"] 0 1) 0) =
        true) :=
  majority_rule (str "#") [str "a", str "# b"] 0 1 0 (by decide) (by decide)
    (by decide)

/-! ## C3 — idempotent round trip -/

/-- C3 counterexample: the already-commented non-blank line `"#x"` toggles to
`"x"` and back to `"# x"`, which differs from the original `"#x"` (and not by
trailing whitespace). -/
theorem roundtrip_counterexample :
    toggleLineSelf (str "#") (toggleLineSelf (str "#") (str "#x")) =
      str "# x" ∧
    isBlank (str "#x") = false ∧
    str "# x" ≠ str "#x" := by decide

/-- C3 (amended): for every non-blank line that is **not already commented**,
toggling twice restores the line exactly in the self-contained
implementation; the fallback restores indent plus trimmed content — equal to
the original line whenever it carries no trailing whitespace (the tolerated
trailing-whitespace-only difference).  For already-commented lines the round
trip may instead normalize spacing after the marker. -/
theorem roundtrip_uncommented (m t : Line) (hm : markerOK m)
    (hb : isBlank t = false) (hc : isCommented m t = false) :
    toggleLineSelf m (toggleLineSelf m t) = t ∧
    toggleRangeFallback m (toggleRangeFallback m [t] 0 0) 0 0 =
      [leadingWs t ++ trim t] ∧
    (trimRight t = t → leadingWs t ++ trim t = t) := by
  refine ⟨?_, ?_, ?_⟩
  · have h1 : toggleLineSelf m t = addCommentToLine m t := by
      unfold toggleLineSelf
      rw [if_neg (by simp [hc]), if_pos (by simp [hb])]
    rw [h1]
    have h2 : toggleLineSelf m (addCommentToLine m t) =
        removeCommentFromLine m (addCommentToLine m t) := by
      unfold toggleLineSelf
      rw [if_pos (by simp [isCommented_addComment m t hm hb])]
    rw [h2]
    exact removeComment_addComment m t hm hb
  · have hr0 : rangeLines [t] 0 0 = [t] := rfl
    have hall : allCommentedLines m (rangeLines [t] 0 0) = false := by
      rw [hr0]
      unfold allCommentedLines
      simp [hb, hc]
    have hfirst : toggleRangeFallback m [t] 0 0 = [addCommentFallback m t] := by
      unfold toggleRangeFallback
      rw [if_neg (by simp [hall])]
      rfl
    rw [hfirst]
    have hall2 : allCommentedLines m (rangeLines [addCommentFallback m t] 0 0) =
        true := by
      have hr1 : rangeLines [addCommentFallback m t] 0 0 =
          [addCommentFallback m t] := rfl
      rw [hr1]
      unfold allCommentedLines
      rw [List.all_cons, List.all_nil,
        isCommented_addCommentFallback m t hm hb]
      simp
    have hsecond : toggleRangeFallback m [addCommentFallback m t] 0 0 =
        [removeCommentFromLine m (addCommentFallback m t)] := by
      unfold toggleRangeFallback
      rw [if_pos (by simp [hall2])]
      rfl
    rw [hsecond, addCommentFallback_eq m t hb,
      removeComment_match m _ (' ' :: trim t) hm mem_leadingWs]
    unfold dropOneWs
    simp [isWs]
  · intro htr
    rw [← trimRight_split t hb, htr]

/-- Witness for C3 (amended) at the spec's example line `"print(1)"`: toggled
twice it returns exactly, in both implementations. -/
theorem roundtrip_uncommented_witness :
    (toggleLineSelf (str "#") (toggleLineSelf (str "#") (str "print(1)")) =
      str "print(1)" ∧
     toggleRangeFallback (str "#")
       (toggleRangeFallback (str "#") [str "print(1)"] 0 0) 0 0 =
       [leadingWs (str "print(1)") ++ trim (str "print(1)")] ∧
     (trimRight (str "print(1)") = str "print(1)" →
       leadingWs (str "print(1)") ++ trim (str "print(1)") =
         str "print(1)")) ∧
    toggleLineSelf (str "#") (str "print(1)") = str "# print(1)" :=
  ⟨roundtrip_uncommented (str "#") (str "print(1)") (by decide) (by decide)
    (by decide), by decide⟩

/-! ## C4 — do all copies agree? -/

/-- C4 counterexample: on the buffer `["x "]` (trailing space) with the
Python mode, the self-contained toggle yields `["# x "]` while the fallback
yields `["# x"]` — the two copies do not agree on every buffer. -/
theorem copies_agree_counterexample :
    selfToggle ⟨some "python", none⟩ [str "x "] 0 0 = [str "# x "] ∧
    fallbackToggle ⟨some "python", none⟩ [str "x "] 0 0 = [str "# x"] ∧
    selfToggle ⟨some "python", none⟩ [str "x "] 0 0 ≠
      fallbackToggle ⟨some "python", none⟩ [str "x "] 0 0 := by decide

theorem toggleRange_self_eq_fallback (m : Line) (buf : List Line) (s e : Nat)
    (htr : ∀ t ∈ rangeLines buf s e, isBlank t = false → trimRight t = t) :
    toggleRangeSelf m buf s e = toggleRangeFallback m buf s e := by
  unfold toggleRangeSelf toggleRangeFallback
  rw [allCommented_eq_not_shouldComment]
  cases hsc : shouldCommentLines m (rangeLines buf s e) with
  | false =>
    rw [if_neg (by simp [hsc]), if_pos (by simp [hsc])]
  | true =>
    rw [if_pos (by simp [hsc]), if_neg (by simp [hsc])]
    unfold applyRange
    have : (rangeLines buf s e).map (addCommentToLine m) =
        (rangeLines buf s e).map (addCommentFallback m) := by
      apply List.map_congr_left
      intro t ht
      cases hb : isBlank t with
      | true => rw [addComment_blank m t hb, addCommentFallback_blank m t hb]
      | false =>
        rw [addComment_eq m t hb, addCommentFallback_eq m t hb,
          trim_eq_afterIndent_of_noTrail t hb (htr t ht hb)]
    rw [this]

/-- C4 (amended): the fallback and the self-contained `toggleComment` produce
identical buffer text for a range whenever the mode resolves to the same
marker under both implementations' rules and no non-blank line of the range
carries trailing whitespace; without these conditions agreement can fail,
because the fallback's comment branch rebuilds lines from `line.trim()` (see
the counterexample) and its marker resolution differs from the table's. -/
theorem copies_agree_amended (mo : Mode) (buf : List Line) (s e : Nat)
    (hmk : getCommentString mo = fallbackCommentString mo)
    (htr : ∀ t ∈ rangeLines buf s e, isBlank t = false → trimRight t = t) :
    selfToggle mo buf s e = fallbackToggle mo buf s e := by
  unfold selfToggle fallbackToggle
  rw [← hmk]
  exact toggleRange_self_eq_fallback _ buf s e htr

/-- Witness for C4 (amended): Python mode without a `lineComment` property,
buffer `["a", "# b"]`, no trailing whitespace — both toggles agree. -/
theorem copies_agree_amended_witness :
    selfToggle ⟨some "python", none⟩ [str "a", str "# b"] 0 1 =
      fallbackToggle ⟨some "python", none⟩ [str "a", str "# b"] 0 1 :=
  copies_agree_amended ⟨some "python", none⟩ [str "a", str "# b"] 0 1
    (by decide) (by decide)

/-! ## C2 — marker selection -/

/-- C2 counterexample: with an unset mode (no name, no `lineComment`), the
fallback `toggleComment` uses `"//"` — not the claimed default `"#"` — and
comments `"x"` to `"// x"`. -/
theorem marker_default_counterexample :
    fallbackCommentString ⟨none, none⟩ = "//" ∧
    fallbackToggle ⟨none, none⟩ [str "x"] 0 0 = [str "// x"] ∧
    ("//" : String) ≠ "#" := by decide

/-- C2 (amended): only the self-contained `toggleComment` resolves the marker
through the static language table (python `#`, javascript `//`, sql `--`, …)
with `#` for unknown or unset modes; the fallback `toggleComment` instead
uses the mode's `lineComment` property when present and non-empty, and
otherwise `#` for a mode named exactly `python` and `//` for every other
mode, including an unset one. -/
theorem marker_resolution (mo : Mode) (c : String) :
    (mo.name = none → getCommentString mo = "#") ∧
    (modeMapLookup ((mo.name.map jsToLower).getD "") = none →
      getCommentString mo = "#") ∧
    (mo.name = some "python" → getCommentString mo = "#") ∧
    (mo.name = some "javascript" → getCommentString mo = "//") ∧
    (mo.name = some "sql" → getCommentString mo = "--") ∧
    (mo.lineComment = some c → c ≠ "" → fallbackCommentString mo = c) ∧
    (mo.lineComment = none →
      fallbackCommentString mo =
        if mo.name = some "python" then "#" else "//") := by
  obtain ⟨nm, lc⟩ := mo
  refine ⟨?_, ?_, ?_, ?_, ?_, ?_, ?_⟩
  · intro h
    cases h
    rfl
  · intro h
    unfold getCommentString
    rw [h]
    rfl
  · intro h
    cases h
    rfl
  · intro h
    cases h
    rfl
  · intro h
    cases h
    rfl
  · intro h hc
    cases h
    unfold fallbackCommentString
    simp [hc]
  · intro h
    cases h
    rfl

/-- Witness for C2 (amended): concrete resolutions for unset, python, and
`lineComment`-carrying modes. -/
theorem marker_resolution_witness :
    getCommentString ⟨none, none⟩ = "#" ∧
    getCommentString ⟨some "python", none⟩ = "#" ∧
    getCommentString ⟨some "javascript", none⟩ = "//" ∧
    fallbackCommentString ⟨some "sql", some "--"⟩ = "--" ∧
    fallbackCommentString ⟨some "sql", none⟩ =
      (if (some "sql" : Option String) = some "python" then "#" else "//") :=
  ⟨(marker_resolution ⟨none, none⟩ "").1 rfl,
   (marker_resolution ⟨some "python", none⟩ "").2.2.1 rfl,
   (marker_resolution ⟨some "javascript", none⟩ "").2.2.2.1 rfl,
   (marker_resolution ⟨some "sql", some "--"⟩ "--").2.2.2.2.2.1 rfl
     (by decide),
   (marker_resolution ⟨some "sql", none⟩ "").2.2.2.2.2.2 rfl⟩

/-! ## C9 — readiness predicate -/

/-- C9 (confirmed): `checkKernelReady` is exactly the conjunction
`serverReady && sessionReady && kernelReady` (where the server/session legs
also accept the live object state, reducing to the three flags when the
objects are absent); `isThebeReady` is the same predicate; and the `ready`
CSS class driven through `monitorThebeStatus`/`updateUIForStatus` is set iff
the predicate holds. -/
theorem readiness_predicate (s : ThebeState) (cls : UIClasses) :
    (checkKernelReady s = true ↔
      serverReadyNow s = true ∧ sessionReadyNow s = true ∧
        s.isKernelReady = true) ∧
    (s.server = none → s.session = none →
      (checkKernelReady s = true ↔
        s.isServerReady = true ∧ s.isSessionReady = true ∧
          s.isKernelReady = true)) ∧
    isThebeReady s = checkKernelReady s ∧
    (updateUIForStatus (monitorStatus s) cls).ready = checkKernelReady s ∧
    (updateUIForStatus (monitorStatus s) cls).loading = !checkKernelReady s :=
  by
  refine ⟨?_, ?_, rfl, ?_, ?_⟩
  · unfold checkKernelReady
    cases serverReadyNow s <;> cases sessionReadyNow s <;>
      cases s.isKernelReady <;> simp
  · intro h1 h2
    unfold checkKernelReady serverReadyNow sessionReadyNow
    rw [h1, h2]
    cases s.isServerReady <;> cases s.isSessionReady <;>
      cases s.isKernelReady <;> simp
  · unfold updateUIForStatus monitorStatus isThebeReady
    cases h : checkKernelReady s <;> simp [h]
  · unfold updateUIForStatus monitorStatus isThebeReady
    cases h : checkKernelReady s <;> simp [h]

/-- Witness for C9: with absent server/session objects the predicate is the
plain conjunction of the three flags. -/
theorem readiness_predicate_witness :
    (checkKernelReady ⟨none, none, true, true, true⟩ = true ↔
      ThebeState.isServerReady ⟨none, none, true, true, true⟩ = true ∧
      ThebeState.isSessionReady ⟨none, none, true, true, true⟩ = true ∧
      ThebeState.isKernelReady ⟨none, none, true, true, true⟩ = true) ∧
    (updateUIForStatus (monitorStatus ⟨none, none, true, true, true⟩)
      ⟨false, true, false⟩).ready =
        checkKernelReady ⟨none, none, true, true, true⟩ :=
  ⟨(readiness_predicate ⟨none, none, true, true, true⟩
      ⟨false, true, false⟩).2.1 rfl rfl,
   (readiness_predicate ⟨none, none, true, true, true⟩
      ⟨false, true, false⟩).2.2.2.1⟩

/-! ## C8 — cursor preservation -/

theorem anchor_from_or_to (sel : Sel) :
    sel.anchor = selFrom sel ∨ sel.anchor = selTo sel := by
  unfold selFrom selTo
  by_cases h : posLe sel.anchor sel.head
  · left
    rw [if_pos h]
  · right
    rw [if_neg h]

theorem head_from_or_to (sel : Sel) :
    sel.head = selFrom sel ∨ sel.head = selTo sel := by
  unfold selFrom selTo
  by_cases h : posLe sel.anchor sel.head
  · right
    rw [if_pos h]
  · left
    rw [if_neg h]

theorem selTo_cases (sel : Sel) :
    selTo sel = sel.anchor ∨ selTo sel = sel.head := by
  unfold selTo
  by_cases h : posLe sel.anchor sel.head
  · right
    rw [if_pos h]
  · left
    rw [if_neg h]

theorem selFrom_line_le (sel : Sel) :
    (selFrom sel).line ≤ (selTo sel).line := by
  unfold selFrom selTo
  by_cases h : posLe sel.anchor sel.head
  · rw [if_pos h, if_pos h]
    rcases h with h | ⟨h, _⟩ <;> omega
  · rw [if_neg h, if_neg h]
    unfold posLe at h
    have h1 := (not_or.mp h).1
    omega

theorem anchor_head_eq_of_from_eq_to (sel : Sel)
    (h : selFrom sel = selTo sel) : sel.anchor = sel.head := by
  unfold selFrom selTo at h
  by_cases hp : posLe sel.anchor sel.head
  · rw [if_pos hp, if_pos hp] at h
    exact h
  · rw [if_neg hp, if_neg hp] at h
    exact h.symm

/-- The delta returned by `removeCommentFromLine` equals the actual length
change of the line. -/
theorem removeDelta_eq_len (m t : Line) :
    removeDelta m t =
      ((removeCommentFromLine m t).length : Int) - (t.length : Int) := by
  unfold removeDelta
  by_cases hr : removeCommentFromLine m t = t
  · rw [if_pos hr, hr]
    omega
  · rw [if_neg hr]

/-- The delta returned by `addCommentToLine` equals the actual length change
of the line. -/
theorem addDelta_eq_len (m t : Line) :
    addDelta m t =
      ((addCommentToLine m t).length : Int) - (t.length : Int) := by
  unfold addDelta
  by_cases hb : isBlank t = true
  · rw [if_pos hb, addComment_blank m t hb]
    omega
  · have hb' : isBlank t = false := by
      revert hb
      cases isBlank t <;> simp
    rw [if_neg hb, addComment_length m t hb']
    push_cast
    omega

/-- The delta returned by `toggleCommentForLine` equals the actual length
change of the rewritten line. -/
theorem singleDelta_eq_len (m text : Line) :
    singleDelta m text =
      ((toggleLineSelf m text).length : Int) - (text.length : Int) := by
  unfold singleDelta toggleLineSelf
  by_cases hc : isCommented m text = true
  · rw [if_pos hc, if_pos hc, removeDelta_eq_len]
  · rw [if_neg hc, if_neg hc]
    by_cases hb : (!isBlank text) = true
    · rw [if_pos hb, if_pos hb, addDelta_eq_len]
    · rw [if_neg hb, if_neg hb]
      omega

/-- The `lineDeltas` entry recorded for a line equals the actual length
change of that line under the chosen direction. -/
theorem lineDelta_eq_len (m : Line) (sc : Bool) (t : Line) :
    lineDelta m sc t =
      (((if sc then addCommentToLine m t
         else removeCommentFromLine m t).length : Int)) -
        (t.length : Int) := by
  unfold lineDelta
  by_cases hsc : sc = true
  · rw [if_pos hsc, if_pos hsc, addDelta_eq_len]
  · rw [if_neg hsc, if_neg hsc, removeDelta_eq_len]

/-- The recorded per-line delta for an in-range line is the net
character-count change of that line in the rewritten buffer. -/
theorem rangeDelta_eq_len (m : Line) (buf : List Line) (s e l : Nat)
    (hse : s ≤ e) (he : e < buf.length) (h1 : s ≤ l) (h2 : l ≤ e) :
    rangeDeltaAt m buf s e l =
      lineLenDelta buf (toggleRangeSelf m buf s e) l := by
  unfold rangeDeltaAt lineLenDelta
  rw [if_pos ⟨h1, h2⟩]
  have hl : lineAt (toggleRangeSelf m buf s e) l =
      (if shouldCommentLines m (rangeLines buf s e) then
        addCommentToLine m (lineAt buf l)
      else removeCommentFromLine m (lineAt buf l)) := by
    unfold toggleRangeSelf
    cases hsc : shouldCommentLines m (rangeLines buf s e) with
    | true =>
      rw [if_pos (by simp [hsc]), if_pos (by simp [hsc])]
      exact applyRange_lineAt_in _ _ _ _ _ hse he h1 h2
    | false =>
      rw [if_neg (by simp [hsc]), if_neg (by simp [hsc])]
      exact applyRange_lineAt_in _ _ _ _ _ hse he h1 h2
  rw [hl, lineDelta_eq_len]

/-- C8 (confirmed): after `toggleCommentForSelection`, anchor and head keep
their line numbers, and each column is the original column shifted by the net
character-count change of that position's own line, clamped at zero. -/
theorem cursor_preservation (m : Line) (buf : List Line) (sel : Sel)
    (ha : sel.anchor.line < buf.length) (hh : sel.head.line < buf.length) :
    (toggleSelectionSelf m buf sel).2.anchor.line = sel.anchor.line ∧
    (toggleSelectionSelf m buf sel).2.head.line = sel.head.line ∧
    (toggleSelectionSelf m buf sel).2.anchor.ch =
      clampCh sel.anchor.ch
        (lineLenDelta buf (toggleSelectionSelf m buf sel).1
          sel.anchor.line) ∧
    (toggleSelectionSelf m buf sel).2.head.ch =
      clampCh sel.head.ch
        (lineLenDelta buf (toggleSelectionSelf m buf sel).1
          sel.head.line) := by
  by_cases hft : selFrom sel = selTo sel
  · have hah : sel.anchor = sel.head := anchor_head_eq_of_from_eq_to sel hft
    have hfa : selFrom sel = sel.anchor := by
      unfold selFrom
      rw [hah]
      exact ite_self _
    unfold toggleSelectionSelf
    rw [if_pos hft]
    dsimp only
    have hdelta : singleDelta m (lineAt buf (selFrom sel).line) =
        lineLenDelta buf
          (applyRange (toggleLineSelf m) buf (selFrom sel).line
            (selFrom sel).line) (selFrom sel).line := by
      unfold lineLenDelta
      rw [applyRange_lineAt_in _ _ _ _ _ (le_refl _) (by rw [hfa]; exact ha)
        (le_refl _) (le_refl _)]
      exact singleDelta_eq_len m _
    have hfh : selFrom sel = sel.head := hfa.trans hah
    refine ⟨by rw [hfa], by rw [hfa, hah], ?_, ?_⟩
    · rw [← hfa, hdelta]
    · rw [← hfh, hdelta]
  · have hse : (selFrom sel).line ≤ (selTo sel).line := selFrom_line_le sel
    have he : (selTo sel).line < buf.length := by
      rcases selTo_cases sel with h | h <;> rw [h] <;> assumption
    have hin_a : (selFrom sel).line ≤ sel.anchor.line ∧
        sel.anchor.line ≤ (selTo sel).line := by
      rcases anchor_from_or_to sel with h | h <;> rw [h] <;>
        exact ⟨by omega, by omega⟩
    have hin_h : (selFrom sel).line ≤ sel.head.line ∧
        sel.head.line ≤ (selTo sel).line := by
      rcases head_from_or_to sel with h | h <;> rw [h] <;>
        exact ⟨by omega, by omega⟩
    unfold toggleSelectionSelf
    rw [if_neg hft]
    dsimp only
    refine ⟨rfl, rfl, ?_, ?_⟩
    · rw [rangeDelta_eq_len m buf _ _ _ hse he hin_a.1 hin_a.2]
    · rw [rangeDelta_eq_len m buf _ _ _ hse he hin_h.1 hin_h.2]

/-- Witness for C8: a two-line selection with the Python marker keeps both
lines and shifts both columns by that line's delta, clamped at zero. -/
theorem cursor_preservation_witness :
    (toggleSelectionSelf (str "#") [str "x = 1", str "y = 2"]
      ⟨⟨0, 2⟩, ⟨1, 3⟩⟩).2.anchor.line = (0 : Nat) ∧
    (toggleSelectionSelf (str "#") [str "x = 1", str "y = 2"]
      ⟨⟨0, 2⟩, ⟨1, 3⟩⟩).2.head.line = (1 : Nat) ∧
    (toggleSelectionSelf (str "#") [str "x = 1", str "y = 2"]
      ⟨⟨0, 2⟩, ⟨1, 3⟩⟩).2.anchor.ch =
      clampCh 2 (lineLenDelta [str "x = 1", str "y = 2"]
        (toggleSelectionSelf (str "#") [str "x = 1", str "y = 2"]
          ⟨⟨0, 2⟩, ⟨1, 3⟩⟩).1 0) ∧
    (toggleSelectionSelf (str "#") [str "x = 1", str "y = 2"]
      ⟨⟨0, 2⟩, ⟨1, 3⟩⟩).2.head.ch =
      clampCh 3 (lineLenDelta [str "x = 1", str "y = 2"]
        (toggleSelectionSelf (str "#") [str "x = 1", str "y = 2"]
          ⟨⟨0, 2⟩, ⟨1, 3⟩⟩).1 1) :=
  cursor_preservation (str "#") [str "x = 1", str "y = 2"] ⟨⟨0, 2⟩, ⟨1, 3⟩⟩
    (by decide) (by decide)

end MemoDemo
